import Mathlib

/-!
Verification of the watermark-removal core of the Image-Processing repository.

The Python sources are shallowly embedded: raster masks and images become
`List (List Nat)` grids of 8-bit values, stateful classes become explicit
state records with pure transition functions, and the external OpenCV
inpainting oracle is kept abstract (either as a function parameter or as an
explicit record of the arguments handed to it).  Each definition mirrors one
function of the source:

* `auto_algorithm_choice`      — `core/watermark_remover.py  WatermarkRemover._auto_algorithm` (decision part)
* `calculate_watermark_confidence`, `detect_watermark`
                               — `core/watermark_remover.py  detect_watermark / _calculate_watermark_confidence`
* `core_remove_watermark`      — `core/watermark_remover.py  WatermarkRemover.remove_watermark`
* `save_mask_to_history`, `undo_mask`, `redo_mask`, `draw_line_on_mask`, `load_state`
                               — `watermark/watermark_remover.py` history / drawing methods
* `canvas_to_image_coords`, `scale_factor_of`, `set_inpaint_radius`, `wm_remove_watermark`
                               — `watermark/watermark_remover.py`
* `start_batch_processing`, `process_single_image`, `batch_process_thread`,
  `process_item_oracle_call`   — `watermark/batch_processor.py`
-/

/-- A single-channel raster (mask or image plane): rows of 8-bit values. -/
abbrev Grid := List (List Nat)

/-- `np.zeros((h, w), dtype=np.uint8)`: the all-zero mask of size `h × w`. -/
def zeroMask (h w : Nat) : Grid := List.replicate h (List.replicate w 0)

/-- `np.max(mask)` for a `Grid` (0 on an empty grid, as a neutral fold). -/
def gridMax (g : Grid) : Nat := (g.map fun row => row.foldr max 0).foldr max 0

/-- `cv2.threshold(m, 127, 255, cv2.THRESH_BINARY)`: strictly above 127 maps
to 255, everything else to 0. -/
def binarize (g : Grid) : Grid := g.map (List.map fun v => if 127 < v then 255 else 0)

/-- `cv2.resize(src, (dstW, dstH), interpolation=cv2.INTER_NEAREST)`:
destination pixel `(i, j)` reads source pixel
`(min (i*srcH/dstH) (srcH-1), min (j*srcW/dstW) (srcW-1))` (floor division),
OpenCV's nearest-neighbour index rule. -/
def resizeNearest (src : Grid) (dstH dstW : Nat) : Grid :=
  let srcH := src.length
  let srcW := (src.headD []).length
  (List.range dstH).map fun i =>
    (List.range dstW).map fun j =>
      (src.getD (min (i * srcH / dstH) (srcH - 1)) []).getD (min (j * srcW / dstW) (srcW - 1)) 0

/-- Python `int(q)`: truncation of a rational toward zero. -/
def int_trunc (q : ℚ) : ℤ := if q < 0 then -(Int.floor (-q)) else Int.floor q

/-! ### InpaintStrategySelector (`core/watermark_remover.py _auto_algorithm`) -/

/-- The concrete inpainting methods of `core/watermark_remover.py`.
In the spec's vocabulary: `telea` is fast-marching, `ns` is navier-stokes,
`patchmatch` is patch-based. -/
inductive InpaintMethod
  | basic
  | ns
  | telea
  | patchmatch
deriving DecidableEq

/-- The branching of `WatermarkRemover._auto_algorithm` (lines 650-667):
which concrete algorithm is invoked, as a function of the computed
`mask_area` fraction and silhouette `complexity`.  The numeric thresholds
are the source's literals 0.01, 0.2, 0.1, 0.3. -/
def auto_algorithm_choice (mask_area complexity : ℚ) : InpaintMethod :=
  if mask_area < 1/100 then
    if complexity > 1/5 then .telea else .ns
  else if mask_area < 1/10 then
    if complexity > 3/10 then .patchmatch else .telea
  else
    .patchmatch

/-- Modelled from the spec: the decision table of §4.4, row by row, with
fast-marching rendered as `telea`, navier-stokes as `ns` and patch-based as
`patchmatch`.  Used only to compare against `auto_algorithm_choice`. -/
def spec_decision_table (areaFraction complexity : ℚ) : InpaintMethod :=
  if areaFraction < 1/100 ∧ complexity > 1/5 then .telea
  else if areaFraction < 1/100 ∧ complexity ≤ 1/5 then .ns
  else if 1/100 ≤ areaFraction ∧ areaFraction < 1/10 ∧ complexity > 3/10 then .patchmatch
  else if 1/100 ≤ areaFraction ∧ areaFraction < 1/10 ∧ complexity ≤ 3/10 then .telea
  else .patchmatch

/-! ### Inpaint radius (`watermark/watermark_remover.py set_inpaint_radius`) -/

/-- `set_inpaint_radius`: `self.inpaint_radius = max(1, min(20, radius))`. -/
def set_inpaint_radius (radius : ℤ) : ℤ := max 1 (min 20 radius)

/-! ### CoordinateMapper (`watermark/watermark_remover.py`) -/

/-- `set_display_size` (lines 115-128): with an image loaded,
`scale_factor = min(width / img_w, height / img_h) * 0.9`. -/
def scale_factor_of (displayW displayH imgW imgH : Nat) : ℚ :=
  min ((displayW : ℚ) / imgW) ((displayH : ℚ) / imgH) * (9/10)

/-- `canvas_to_image_coords` (lines 130-165), the branch with an image
loaded: compute the scaled image size and centering offsets, divide out the
scale factor, truncate to int, and clamp into `[0, w-1] × [0, h-1]`.
Python `//` is floor division (`Int.fdiv`), Python `int()` truncates toward
zero (`int_trunc`). -/
def canvas_to_image_coords (imgW imgH displayW displayH : Nat) (scale : ℚ)
    (px py : ℤ) : ℤ × ℤ :=
  let scaled_width : ℤ := int_trunc ((imgW : ℚ) * scale)
  let scaled_height : ℤ := int_trunc ((imgH : ℚ) * scale)
  let x_offset : ℤ := max 0 (((displayW : ℤ) - scaled_width).fdiv 2)
  let y_offset : ℤ := max 0 (((displayH : ℤ) - scaled_height).fdiv 2)
  let img_x : ℤ := int_trunc (((px : ℚ) - (x_offset : ℚ)) / scale)
  let img_y : ℤ := int_trunc (((py : ℚ) - (y_offset : ℚ)) / scale)
  (max 0 (min img_x ((imgW : ℤ) - 1)), max 0 (min img_y ((imgH : ℤ) - 1)))

/-! ### BatchOrchestrator pre-flight checks (`watermark/batch_processor.py`) -/

/-- The two `cv2.INPAINT_*` constants used by the batch processor. -/
inductive CvAlgorithm
  | telea
  | ns
deriving DecidableEq

/-- The distinct error messages `start_batch_processing` can report through
`error_callback` (the first two source checks share one message,
`noMaskMarked`). -/
inductive BatchStartError
  | noMaskMarked
  | noImages
  | noOutputDir
  | alreadyProcessing
deriving DecidableEq

/-- The fields of `BatchWatermarkProcessor` that `start_batch_processing`
reads for its pre-flight checks. -/
structure BatchProcessorState where
  template_mask : Option Grid
  image_paths : List String
  output_dir : String
  is_processing : Bool
deriving DecidableEq

/-- What one call to `start_batch_processing` observably does: its boolean
return value, the error (if any) passed to `error_callback`, and whether the
worker thread was started. -/
structure StartResult where
  started : Bool
  error : Option BatchStartError
  launched : Bool
deriving DecidableEq

/-- `start_batch_processing` (lines 133-191): the pre-flight checks in
source order — mask is None, `np.max(mask) == 0`, empty `image_paths`,
empty `output_dir`, `is_processing` — each failing check reports an error
and returns False without launching; if all pass the thread is launched and
True is returned. -/
def start_batch_processing (s : BatchProcessorState) : StartResult :=
  match s.template_mask with
  | none => ⟨false, some .noMaskMarked, false⟩
  | some m =>
    if gridMax m = 0 then ⟨false, some .noMaskMarked, false⟩
    else if s.image_paths = [] then ⟨false, some .noImages, false⟩
    else if s.output_dir = "" then ⟨false, some .noOutputDir, false⟩
    else if s.is_processing then ⟨false, some .alreadyProcessing, false⟩
    else ⟨true, none, true⟩

/-- Whether an optional template mask exists and has a marked pixel. -/
def maskNonEmpty : Option Grid → Bool
  | none => false
  | some m => decide (0 < gridMax m)

/-- Modelled from the spec: the first failing pre-flight check in the
claim's order (template mask exists and is non-empty → source list
non-empty → output directory set → not already running), or `none` when
every check passes.  Used only to compare against
`start_batch_processing`. -/
def spec_first_failing (s : BatchProcessorState) : Option BatchStartError :=
  if maskNonEmpty s.template_mask = false then some .noMaskMarked
  else if s.image_paths.isEmpty then some .noImages
  else if s.output_dir = "" then some .noOutputDir
  else if s.is_processing then some .alreadyProcessing
  else none

/-! ### MaskEditor history (`watermark/watermark_remover.py`) -/

/-- The mask-history state of `watermark/watermark_remover.py`'s
`WatermarkRemover`: the live mask (None before any image is loaded), the
snapshot list `mask_history`, and the cursor `history_index` (an `Int`,
initialised to `-1` in the source). -/
structure MaskState where
  mask : Option Grid
  mask_history : List Grid
  history_index : ℤ
deriving DecidableEq

/-- `_save_mask_to_history` (lines 495-507): no-op when no mask exists;
otherwise, if the cursor is not at the last snapshot, discard every snapshot
after the cursor (`mask_history[:history_index + 1]`), then append a copy of
the live mask and move the cursor to the new end. -/
def save_mask_to_history (s : MaskState) : MaskState :=
  match s.mask with
  | none => s
  | some m =>
    let hist :=
      if s.history_index < (s.mask_history.length : ℤ) - 1 then
        s.mask_history.take (s.history_index + 1).toNat
      else
        s.mask_history
    { s with mask_history := hist ++ [m], history_index := (hist.length : ℤ) }

/-- The mask/history part of `load_image` (lines 62-78): fresh zero mask of
the image's size, history cleared to `[]` with cursor `-1`, then one
`_save_mask_to_history` — so history holds the single zero snapshot and the
cursor is 0. -/
def load_state (h w : Nat) : MaskState :=
  save_mask_to_history { mask := some (zeroMask h w), mask_history := [], history_index := -1 }

/-- `undo_mask` (lines 509-527): returns False (no state change) when the
history is empty or the cursor is at (or before) 0; otherwise decrements the
cursor, replaces the live mask with a copy of the snapshot at the new
cursor, and returns True. -/
def undo_mask (s : MaskState) : Bool × MaskState :=
  if s.mask_history = [] ∨ s.history_index ≤ 0 then (false, s)
  else
    let i := s.history_index - 1
    (true, { s with history_index := i, mask := some (s.mask_history.getD i.toNat []) })

/-- `redo_mask` (lines 529-547): returns False when the cursor is already at
the last snapshot (`history_index >= len(mask_history) - 1`); otherwise
increments the cursor, replaces the live mask with a copy of the snapshot at
the new cursor, and returns True. -/
def redo_mask (s : MaskState) : Bool × MaskState :=
  if (s.mask_history.length : ℤ) - 1 ≤ s.history_index then (false, s)
  else
    let i := s.history_index + 1
    (true, { s with history_index := i, mask := some (s.mask_history.getD i.toNat []) })

/-- `draw_line_on_mask` (lines 193-234): no-op without a mask; otherwise the
cv2 raster writes (line plus end-cap circles, with the coordinate-validity
guard) are abstracted as an arbitrary mask transformation `paint`, and
`coin` is the outcome of the throttled history save
`np.random.random() < 0.2` on lines 232-234: when it fires, the updated mask
is additionally pushed to the history mid-stroke. -/
def draw_line_on_mask (paint : Grid → Grid) (coin : Bool) (s : MaskState) : MaskState :=
  match s.mask with
  | none => s
  | some m =>
    let s1 := { s with mask := some (paint m) }
    if coin then save_mask_to_history s1 else s1

/-- One stroke-and-snapshot operation as the UI performs it
(`watermark_tab.py`): the stroke's raster effect (`paint`, with every
mid-stroke random save *not* firing), then the end-of-stroke
`_save_mask_to_history` from the pointer-release handler. -/
def stroke_and_snapshot (paint : Grid → Grid) (s : MaskState) : MaskState :=
  save_mask_to_history (draw_line_on_mask paint false s)

/-- A sequence of stroke-and-snapshot operations, in order. -/
def run_strokes (ps : List (Grid → Grid)) (s : MaskState) : MaskState :=
  ps.foldl (fun s p => stroke_and_snapshot p s) s

/-- The successive masks produced by a sequence of strokes starting from
mask `m`. -/
def stroke_results : List (Grid → Grid) → Grid → List Grid
  | [], _ => []
  | p :: ps, m => p m :: stroke_results ps (p m)

/-- The mask after applying a whole sequence of strokes to `m`. -/
def final_mask (ps : List (Grid → Grid)) (m : Grid) : Grid :=
  ps.foldl (fun m p => p m) m

/-- `undo_mask` iterated `n` times (keeping only the state). -/
def undo_iter : Nat → MaskState → MaskState
  | 0, s => s
  | n + 1, s => undo_iter n (undo_mask s).2

/-- `redo_mask` iterated `n` times (keeping only the state). -/
def redo_iter : Nat → MaskState → MaskState
  | 0, s => s
  | n + 1, s => redo_iter n (redo_mask s).2

/-! ### Batch execution (`watermark/batch_processor.py`) -/

/-- One batch source, abstracted by the environment facts
`_process_single_image` depends on: whether `cv2.imread`/`PIL` can read the
file, whether the `cv2.inpaint` call succeeds on it, and whether the result
can be written to the output directory. -/
structure BatchItem where
  path : String
  readable : Bool
  processable : Bool
  writable : Bool
deriving DecidableEq

/-- `_process_single_image` (lines 257-334), with the pixel work abstracted
to its success/failure conditions: an unreadable source returns False (lines
269-283), a failing inpaint call is caught by the outer except and returns
False (lines 332-334), a failing save returns False (lines 327-329);
otherwise the image is processed and saved and True is returned. -/
def process_single_image (it : BatchItem) : Bool :=
  if !it.readable then false
  else if !it.processable then false
  else if !it.writable then false
  else true

/-- The counters `_batch_process_thread` accumulates (lines 222-242). -/
structure BatchCounters where
  processed_count : Nat
  success_count : Nat
  failed_paths : List String
deriving DecidableEq

/-- One iteration of the result loop of `_batch_process_thread` (lines
223-242) when stop has not been requested: a successful item increments
`success_count`, a failed one appends its path to `failed_paths`, and
`processed_count` is always incremented. -/
def batch_step (acc : BatchCounters) (it : BatchItem) : BatchCounters :=
  let acc1 :=
    if process_single_image it then
      { acc with success_count := acc.success_count + 1 }
    else
      { acc with failed_paths := acc.failed_paths ++ [it.path] }
  { acc1 with processed_count := acc1.processed_count + 1 }

/-- `_batch_process_thread` run to natural completion (stop never
requested), starting from the counters reset by `start_batch_processing`:
the result loop over the futures in completion order (`order` is some
permutation of the submitted sources). -/
def batch_process_thread (order : List BatchItem) : BatchCounters :=
  order.foldl batch_step ⟨0, 0, []⟩

/-! ### SingleImageProcessor empty-mask behaviour -/

/-- `remove_watermark` of `core/watermark_remover.py` (lines 351-401),
restricted to its observable outcome: the first component is the returned
image (`none` models the `return None` of the no-image and exception
paths) and the second records whether the empty-mask warning
(`logging.warning("未标记水印区域")`) was emitted.  With an empty mask the
method returns a copy of the original image (line 368); otherwise it
returns the algorithm's result, abstracted by the `inpaint` parameter. -/
def core_remove_watermark (original_image mask : Option Grid)
    (inpaint : Grid → Grid → Grid) : Option Grid × Bool :=
  match original_image, mask with
  | some img, some m =>
    if gridMax m = 0 then (some img, true)
    else (some (inpaint img m), false)
  | _, _ => (none, false)

/-- `remove_watermark` of `watermark/watermark_remover.py` (lines 353-399):
returns False when no image or mask is loaded; resizes the mask to the
original image's size (nearest neighbour), binarizes at threshold 127, and
returns False when the binarized mask has no marked pixel (lines 377-380) —
the same return value as the failure paths, with no result image produced;
otherwise stores the inpaint result (abstracted by the `inpaint` parameter)
and returns True.  The pair is (returned bool, result image produced by
this call). -/
def wm_remove_watermark (image : Option Grid) (original_image : Grid)
    (mask : Option Grid) (inpaint : Grid → Grid → Nat → Grid)
    (radius : Nat) : Bool × Option Grid :=
  match image, mask with
  | some _, some m =>
    let h := original_image.length
    let w := (original_image.headD []).length
    let mask_binary := binarize (resizeNearest m h w)
    if gridMax mask_binary = 0 then (false, none)
    else (true, some (inpaint original_image mask_binary radius))
  | _, _ => (false, none)

/-! ### WatermarkDetector (`core/watermark_remover.py detect_watermark`) -/

/-- A detected watermark region, as built on lines 258-265. -/
structure DetectedRegion where
  x : Nat
  y : Nat
  width : Nat
  height : Nat
  area : Nat
  confidence : ℚ
deriving DecidableEq

/-- One external contour found on the thresholded image, together with the
statistics `_calculate_watermark_confidence` computes over its grayscale
region of interest: the standard deviation and the summed gradient
magnitude (both produced by cv2/numpy and treated here as rational input
data). -/
structure ContourStats where
  x : Nat
  y : Nat
  w : Nat
  h : Nat
  stdDev : ℚ
  gradientSum : ℚ
deriving DecidableEq

/-- `_calculate_watermark_confidence` (lines 294-328):
`(1 - stdDev/255) * 0.5 + (normalizedGradient/100) * 0.5`, clamped into
`[0, 1]` by `max(0, min(1, confidence))`. -/
def calculate_watermark_confidence (stdDev normalizedGradient : ℚ) : ℚ :=
  max 0 (min 1 ((1 - stdDev / 255) * (1/2) + (normalizedGradient / 100) * (1/2)))

/-- Insert a region into a list sorted by non-increasing confidence
(the effect of Python's stable `sort(key=confidence, reverse=True)`). -/
def insert_by_conf (r : DetectedRegion) : List DetectedRegion → List DetectedRegion
  | [] => [r]
  | s :: rest =>
    if s.confidence < r.confidence then r :: s :: rest
    else s :: insert_by_conf r rest

/-- Sort regions by non-increasing confidence. -/
def sort_by_conf_desc : List DetectedRegion → List DetectedRegion
  | [] => []
  | r :: rest => insert_by_conf r (sort_by_conf_desc rest)

/-- `detect_watermark` (lines 217-292), from the contour list on: boxes
whose area lies outside the open interval
`(0.001 * imgArea, 0.2 * imgArea)` are rejected (line 257), each survivor
gets a clamped confidence with `normalized_gradient = gradient_sum/(w*h)`
(lines 313-323), the list is sorted by descending confidence and the first
5 are kept (lines 269-272). -/
def detect_watermark (imgW imgH : Nat) (contours : List ContourStats) :
    List DetectedRegion :=
  let img_area : ℚ := (imgW : ℚ) * (imgH : ℚ)
  let survivors := contours.filter fun c =>
    decide ((1/1000 : ℚ) * img_area < (c.w * c.h : ℕ) ∧
            ((c.w * c.h : ℕ) : ℚ) < (2/10 : ℚ) * img_area)
  let regions := survivors.map fun c =>
    { x := c.x, y := c.y, width := c.w, height := c.h, area := c.w * c.h,
      confidence :=
        calculate_watermark_confidence c.stdDev (c.gradientSum / ((c.w : ℚ) * (c.h : ℚ))) }
  (sort_by_conf_desc regions).take 5

/-! ### Template-mask aliasing in the batch thread -/

/-- The argument tuple of one `cv2.inpaint` invocation made by
`_process_single_image` (line 293); the oracle is deterministic in these
arguments, so two invocations give identical results exactly when their
argument tuples agree. -/
structure OracleCall where
  image : Grid
  mask : Grid
  radius : Nat
  algorithm : CvAlgorithm
deriving DecidableEq

/-- The oracle invocation `_process_single_image` performs for one source
image: resize the template mask to the image's size with nearest-neighbour
interpolation, binarize at 127, and call `cv2.inpaint` (lines 285-293).
`template_mask_contents` is the contents of the mask array the worker
reads when this item runs. -/
def process_item_oracle_call (template_mask_contents : Grid) (image : Grid)
    (radius : Nat) (algo : CvAlgorithm) : OracleCall :=
  let h := image.length
  let w := (image.headD []).length
  ⟨image, binarize (resizeNearest template_mask_contents h w), radius, algo⟩

/-- One batch run, as far as the template mask is concerned.  Line 209 of
`_batch_process_thread` binds `template_mask =
self.template_watermark_remover.mask` — a reference to the live ndarray,
not a copy — so the mask contents a worker reads for item `i` are the live
array's contents at the time item `i` executes (`mask_at_item`), which
in-place edits from the UI thread after start may have changed away from
`mask_at_start`. -/
structure BatchRunTrace where
  mask_at_start : Grid
  mask_at_item : List Grid
deriving DecidableEq

/-- The per-item oracle invocations of one batch run over `images`. -/
def run_item_oracle_calls (t : BatchRunTrace) (images : List Grid)
    (radius : Nat) (algo : CvAlgorithm) : List OracleCall :=
  List.zipWith (fun m img => process_item_oracle_call m img radius algo)
    t.mask_at_item images

/-! ### Theorems -/

/-- Claim C1: for every mask the auto strategy selector returns the method
given by the spec's decision table on `(areaFraction, complexity)`; in
particular area fraction 0.005 with complexity 0.5 yields fast-marching
(`telea`) and area fraction 0.5 yields patch-based (`patchmatch`) for any
complexity. -/
theorem c1_auto_strategy_table :
    ∀ a c : ℚ,
      auto_algorithm_choice a c = spec_decision_table a c ∧
      auto_algorithm_choice (5/1000) (5/10) = .telea ∧
      auto_algorithm_choice (5/10) c = .patchmatch := by
  intro a c
  refine ⟨?_, by norm_num [auto_algorithm_choice], by norm_num [auto_algorithm_choice]⟩
  unfold auto_algorithm_choice spec_decision_table
  by_cases ha1 : a < 1/100
  · by_cases hc1 : (1/5 : ℚ) < c
    · rw [if_pos ha1, if_pos hc1, if_pos ⟨ha1, hc1⟩]
    · rw [if_pos ha1, if_neg hc1, if_neg (fun h => hc1 h.2), if_pos ⟨ha1, not_lt.mp hc1⟩]
  · by_cases ha2 : a < 1/10
    · by_cases hc2 : (3/10 : ℚ) < c
      · rw [if_neg ha1, if_pos ha2, if_pos hc2, if_neg (fun h => ha1 h.1),
          if_neg (fun h => ha1 h.1), if_pos ⟨not_lt.mp ha1, ha2, hc2⟩]
      · rw [if_neg ha1, if_pos ha2, if_neg hc2, if_neg (fun h => ha1 h.1),
          if_neg (fun h => ha1 h.1), if_neg (fun h => hc2 h.2.2),
          if_pos ⟨not_lt.mp ha1, ha2, not_lt.mp hc2⟩]
    · rw [if_neg ha1, if_neg ha2, if_neg (fun h => ha1 h.1), if_neg (fun h => ha1 h.1),
        if_neg (fun h => ha2 h.2.1), if_neg (fun h => ha2 h.2.1)]

/-- `_save_mask_to_history` never changes the live mask itself. -/
theorem save_mask_to_history_mask (s : MaskState) :
    (save_mask_to_history s).mask = s.mask := by
  unfold save_mask_to_history
  split
  · rfl
  · rename_i m hm
    rw [hm]

/-- Running a sequence of stroke-and-snapshot operations from a state whose
cursor sits at the end of the history appends exactly the successive stroke
results, leaving the cursor at the new end. -/
theorem run_strokes_eq (ps : List (Grid → Grid)) :
    ∀ (l : List Grid) (m : Grid),
      run_strokes ps ⟨some m, l, (l.length : ℤ) - 1⟩ =
        ⟨some (final_mask ps m), l ++ stroke_results ps m,
          (l.length : ℤ) + ps.length - 1⟩ := by
  induction ps with
  | nil =>
    intro l m
    simp [run_strokes, final_mask, stroke_results]
  | cons p ps ih =>
    intro l m
    have step : stroke_and_snapshot p ⟨some m, l, (l.length : ℤ) - 1⟩ =
        ⟨some (p m), l ++ [p m], ((l ++ [p m]).length : ℤ) - 1⟩ := by
      simp [stroke_and_snapshot, draw_line_on_mask, save_mask_to_history]
    have unfolded : run_strokes (p :: ps) ⟨some m, l, (l.length : ℤ) - 1⟩ =
        run_strokes ps (stroke_and_snapshot p ⟨some m, l, (l.length : ℤ) - 1⟩) := rfl
    rw [unfolded, step, ih (l ++ [p m]) (p m)]
    simp only [MaskState.mk.injEq, final_mask, stroke_results, List.foldl_cons,
      List.append_assoc, List.singleton_append, List.length_append, List.length_cons,
      List.length_nil, true_and, and_true]
    omega

/-- The length of the stroke-result list equals the number of strokes. -/
theorem stroke_results_length (ps : List (Grid → Grid)) :
    ∀ m : Grid, (stroke_results ps m).length = ps.length := by
  induction ps with
  | nil => intro m; rfl
  | cons p ps ih => intro m; simp [stroke_results, ih (p m)]

/-- Indexing the history `m :: stroke_results ps m` at position `ps.length`
gives the final mask. -/
theorem stroke_results_getD_last (ps : List (Grid → Grid)) :
    ∀ m : Grid, (m :: stroke_results ps m).getD ps.length [] = final_mask ps m := by
  induction ps with
  | nil => intro m; rfl
  | cons p ps ih =>
    intro m
    show (stroke_results (p :: ps) m).getD ps.length [] = final_mask (p :: ps) m
    simpa [stroke_results, final_mask] using ih (p m)

/-- Iterated `undo_mask` walks the cursor back `k` snapshots, loading each
snapshot into the live mask. -/
theorem undo_iter_getD (k : Nat) :
    ∀ (l : List Grid) (j : Nat), k ≤ j → j < l.length →
      undo_iter k ⟨some (l.getD j []), l, (j : ℤ)⟩ =
        ⟨some (l.getD (j - k) []), l, ((j - k : ℕ) : ℤ)⟩ := by
  induction k with
  | zero => intro l j _ _; simp [undo_iter]
  | succ k ih =>
    intro l j hk hj
    have hne : l ≠ [] := by
      intro h
      rw [h] at hj
      simp at hj
    have hguard : ¬(l = [] ∨ (j : ℤ) ≤ 0) := by
      push_neg
      exact ⟨hne, by omega⟩
    have hstep : (undo_mask ⟨some (l.getD j []), l, (j : ℤ)⟩).2 =
        ⟨some (l.getD (j - 1) []), l, ((j - 1 : ℕ) : ℤ)⟩ := by
      have h1 : ((j : ℤ) - 1).toNat = j - 1 := by omega
      have h2 : (j : ℤ) - 1 = ((j - 1 : ℕ) : ℤ) := by omega
      simp only [undo_mask, if_neg hguard, h1]
      rw [h2]
    show undo_iter k (undo_mask ⟨some (l.getD j []), l, (j : ℤ)⟩).2 = _
    rw [hstep, ih l (j - 1) (by omega) (by omega)]
    have : j - 1 - k = j - (k + 1) := by omega
    rw [this]

/-- Iterated `redo_mask` walks the cursor forward `k` snapshots, loading
each snapshot into the live mask. -/
theorem redo_iter_getD (k : Nat) :
    ∀ (l : List Grid) (j : Nat), j + k < l.length →
      redo_iter k ⟨some (l.getD j []), l, (j : ℤ)⟩ =
        ⟨some (l.getD (j + k) []), l, ((j + k : ℕ) : ℤ)⟩ := by
  induction k with
  | zero => intro l j _; simp [redo_iter]
  | succ k ih =>
    intro l j hj
    have hguard : ¬((l.length : ℤ) - 1 ≤ (j : ℤ)) := by omega
    have hstep : (redo_mask ⟨some (l.getD j []), l, (j : ℤ)⟩).2 =
        ⟨some (l.getD (j + 1) []), l, ((j + 1 : ℕ) : ℤ)⟩ := by
      have h1 : ((j : ℤ) + 1).toNat = j + 1 := by omega
      have h2 : (j : ℤ) + 1 = ((j + 1 : ℕ) : ℤ) := by omega
      simp only [redo_mask, if_neg hguard, h1]
      rw [h2]
    show redo_iter k (redo_mask ⟨some (l.getD j []), l, (j : ℤ)⟩).2 = _
    rw [hstep, ih l (j + 1) (by omega)]
    have : j + 1 + k = j + (k + 1) := by omega
    rw [this]

/-- `undo_mask` leaves a state that still has a live mask. -/
theorem undo_mask_isSome (s : MaskState) (h : s.mask.isSome) :
    ((undo_mask s).2).mask.isSome := by
  unfold undo_mask
  by_cases hg : s.mask_history = [] ∨ s.history_index ≤ 0
  · rw [if_pos hg]; exact h
  · rw [if_neg hg]; rfl

/-- `draw_line_on_mask` leaves a state that still has a live mask. -/
theorem draw_line_on_mask_isSome (p : Grid → Grid) (c : Bool) (s : MaskState)
    (h : s.mask.isSome) : ((draw_line_on_mask p c s).mask).isSome := by
  unfold draw_line_on_mask
  split
  · exact h
  · cases c with
    | false => rfl
    | true => simp [save_mask_to_history_mask]

/-- A stroke-and-snapshot operation leaves a state that still has a live
mask. -/
theorem stroke_and_snapshot_isSome (p : Grid → Grid) (s : MaskState)
    (h : s.mask.isSome) : ((stroke_and_snapshot p s).mask).isSome := by
  unfold stroke_and_snapshot
  rw [save_mask_to_history_mask]
  exact draw_line_on_mask_isSome p false s h

/-- A sequence of stroke-and-snapshot operations leaves a state that still
has a live mask. -/
theorem run_strokes_isSome (ps : List (Grid → Grid)) :
    ∀ s : MaskState, s.mask.isSome → ((run_strokes ps s).mask).isSome := by
  induction ps with
  | nil => intro s h; exact h
  | cons p ps ih =>
    intro s h
    show ((run_strokes ps (stroke_and_snapshot p s)).mask).isSome
    exact ih _ (stroke_and_snapshot_isSome p s h)

/-- After any `_save_mask_to_history` on a state that has a mask, the cursor
is at the last snapshot, so `redo_mask` returns False. -/
theorem redo_after_save (s : MaskState) (m : Grid) (h : s.mask = some m) :
    (redo_mask (save_mask_to_history s)).1 = false := by
  unfold save_mask_to_history
  rw [h]
  unfold redo_mask
  rw [if_pos (by simp)]

/-- Claim C3 counterexample: one stroke-and-snapshot operation after load in
which the stroke's throttled random save (`np.random.random() < 0.2`,
modelled by `coin = true`) fires: the stroke pushes a mid-stroke snapshot
and the pointer-release handler pushes another, so a single `undo_mask`
lands on the mid-stroke snapshot `[[255]]`, not on the all-zero load-time
mask — refuting the claim that undo applied N times after N
stroke-and-snapshot operations always restores the zero mask. -/
theorem c3_counterexample :
    (undo_iter 1 (save_mask_to_history
        (draw_line_on_mask (fun _ => [[255]]) true (load_state 1 1)))).mask ≠
      some (zeroMask 1 1) := by decide

/-- Claim C3 (amended): for every sequence of N stroke-and-snapshot
operations after load in which no mid-stroke randomized save fires (each
operation pushes exactly one snapshot), `undo_mask` applied N times restores
the all-zero load-time mask, and `redo_mask` applied N times after that
restores the mask to its state after the N-th stroke, bit for bit. -/
theorem c3_undo_redo_inverse :
    ∀ (ps : List (Grid → Grid)) (h w : Nat),
      (undo_iter ps.length (run_strokes ps (load_state h w))).mask =
        some (zeroMask h w) ∧
      (redo_iter ps.length
          (undo_iter ps.length (run_strokes ps (load_state h w)))).mask =
        (run_strokes ps (load_state h w)).mask := by
  intro ps h w
  have hload : load_state h w =
      ⟨some (zeroMask h w), [zeroMask h w], ((([zeroMask h w] : List Grid)).length : ℤ) - 1⟩ := by
    simp [load_state, save_mask_to_history]
  have hrun : run_strokes ps (load_state h w) =
      ⟨some (final_mask ps (zeroMask h w)),
        zeroMask h w :: stroke_results ps (zeroMask h w),
        (1 : ℤ) + ps.length - 1⟩ := by
    rw [hload, run_strokes_eq]
    simp
  set l : List Grid := zeroMask h w :: stroke_results ps (zeroMask h w) with hl
  have hlen : l.length = ps.length + 1 := by
    simp [hl, stroke_results_length]
  have hmask : final_mask ps (zeroMask h w) = l.getD ps.length [] := by
    rw [hl, stroke_results_getD_last]
  have hidx : (1 : ℤ) + ps.length - 1 = ((ps.length : ℕ) : ℤ) := by ring
  have hrun2 : run_strokes ps (load_state h w) =
      ⟨some (l.getD ps.length []), l, ((ps.length : ℕ) : ℤ)⟩ := by
    rw [hrun, hmask, hidx]
  have hundo : undo_iter ps.length (run_strokes ps (load_state h w)) =
      ⟨some (l.getD 0 []), l, ((0 : ℕ) : ℤ)⟩ := by
    rw [hrun2, undo_iter_getD ps.length l ps.length (le_refl _) (by omega)]
    simp
  have hredo : redo_iter ps.length
      (undo_iter ps.length (run_strokes ps (load_state h w))) =
      ⟨some (l.getD ps.length []), l, ((ps.length : ℕ) : ℤ)⟩ := by
    rw [hundo]
    have := redo_iter_getD ps.length l 0 (by omega)
    simpa using this
  refine ⟨?_, ?_⟩
  · rw [hundo]
    simp [hl]
  · rw [hredo, hrun2]

/-- Claim C4: pushing a new snapshot while the cursor is not at the end of
the history discards every snapshot after the cursor
(`mask_history[:history_index+1]` then append); and in the scenario
undo, undo, new stroke (whether or not its random mid-stroke save fires),
end-of-stroke snapshot — performed after load and any number of
stroke-and-snapshot operations — `redo_mask` returns false: the old future
is unreachable. -/
theorem c4_truncation_on_branch :
    ∀ (s : MaskState) (m : Grid),
      (s.mask = some m → 0 ≤ s.history_index →
        s.history_index < (s.mask_history.length : ℤ) - 1 →
        (save_mask_to_history s).mask_history =
          s.mask_history.take (s.history_index + 1).toNat ++ [m]) ∧
      (∀ (ps : List (Grid → Grid)) (p : Grid → Grid) (c : Bool) (h w : Nat),
        (redo_mask (save_mask_to_history (draw_line_on_mask p c
          (undo_mask (undo_mask (run_strokes ps (load_state h w))).2).2))).1 = false) := by
  intro s m
  constructor
  · intro hm _ hlt
    unfold save_mask_to_history
    rw [hm]
    simp only [if_pos hlt]
  · intro ps p c h w
    have hload : (load_state h w).mask.isSome := by
      unfold load_state
      rw [save_mask_to_history_mask]
      rfl
    have hsome : ((draw_line_on_mask p c
        (undo_mask (undo_mask (run_strokes ps (load_state h w))).2).2).mask).isSome :=
      draw_line_on_mask_isSome p c _
        (undo_mask_isSome _ (undo_mask_isSome _ (run_strokes_isSome ps _ hload)))
    obtain ⟨m2, hm2⟩ := Option.isSome_iff_exists.mp hsome
    exact redo_after_save _ m2 hm2

/-- Claim C4 witness: the truncation equation applied at a concrete state
with cursor 0 inside a three-snapshot history, and the concrete
undo-undo-stroke-snapshot scenario. -/
theorem c4_witness :
    (save_mask_to_history ⟨some [[9]], [[[0]], [[1]], [[2]]], 0⟩).mask_history =
      ([[[0]], [[1]], [[2]]] : List Grid).take ((0 : ℤ) + 1).toNat ++ [[[9]]] ∧
    (redo_mask (save_mask_to_history (draw_line_on_mask (fun g => g) true
      (undo_mask (undo_mask (run_strokes [] (load_state 1 1))).2).2))).1 = false :=
  ⟨(c4_truncation_on_branch ⟨some [[9]], [[[0]], [[1]], [[2]]], 0⟩ [[9]]).1 rfl
      (by decide) (by decide),
   (c4_truncation_on_branch ⟨some [[9]], [[[0]], [[1]], [[2]]], 0⟩ [[9]]).2 [] (fun g => g)
      true 1 1⟩

/-- Claim C6: `start_batch_processing` runs its pre-flight checks in the
fixed order of the spec (template mask exists and is non-empty, then source
list non-empty, then output directory set, then not already running); the
first failing check is the reported error, `started` is true exactly when
every check passes, and the worker thread is launched exactly when
`started` is true (so no processing is launched on a failed check). -/
theorem c6_preflight_check_order :
    ∀ s : BatchProcessorState,
      (start_batch_processing s).error = spec_first_failing s ∧
      ((start_batch_processing s).started = true ↔ spec_first_failing s = none) ∧
      (start_batch_processing s).launched = (start_batch_processing s).started := by
  intro s
  rcases s with ⟨mask, paths, dir, proc⟩
  match mask with
  | none => simp [start_batch_processing, spec_first_failing, maskNonEmpty]
  | some m =>
    by_cases hm : gridMax m = 0
    · simp [start_batch_processing, spec_first_failing, maskNonEmpty, hm]
    · have hm2 : 0 < gridMax m := Nat.pos_of_ne_zero hm
      by_cases hp : paths = []
      · simp [start_batch_processing, spec_first_failing, maskNonEmpty, hm, hm2, hp]
      · by_cases hd : dir = ""
        · simp [start_batch_processing, spec_first_failing, maskNonEmpty, hm, hm2, hp, hd]
        · by_cases hr : proc
          · simp [start_batch_processing, spec_first_failing, maskNonEmpty, hm, hm2, hp, hd, hr]
          · simp [start_batch_processing, spec_first_failing, maskNonEmpty, hm, hm2, hp, hd, hr]

/-- Claim C6 witness: the theorem applied at a concrete state whose first
failing check is the unset output directory. -/
theorem c6_witness :
    (start_batch_processing ⟨some [[255]], ["a.png"], "", false⟩).error =
      spec_first_failing ⟨some [[255]], ["a.png"], "", false⟩ ∧
    ((start_batch_processing ⟨some [[255]], ["a.png"], "", false⟩).started = true ↔
      spec_first_failing ⟨some [[255]], ["a.png"], "", false⟩ = none) ∧
    (start_batch_processing ⟨some [[255]], ["a.png"], "", false⟩).launched =
      (start_batch_processing ⟨some [[255]], ["a.png"], "", false⟩).started :=
  c6_preflight_check_order ⟨some [[255]], ["a.png"], "", false⟩

/-- Claim C7: for every loaded image of size `(w, h)`, every configured
display surface and every canvas point (in-bounds or not), the
canvas-to-image conversion returns integer coordinates within
`[0, w-1] × [0, h-1]`. -/
theorem c7_canvas_coords_in_bounds :
    ∀ (imgW imgH displayW displayH : Nat) (px py : ℤ),
      1 ≤ imgW → 1 ≤ imgH → 1 ≤ displayW → 1 ≤ displayH →
      0 ≤ (canvas_to_image_coords imgW imgH displayW displayH
            (scale_factor_of displayW displayH imgW imgH) px py).1 ∧
      (canvas_to_image_coords imgW imgH displayW displayH
            (scale_factor_of displayW displayH imgW imgH) px py).1 ≤ (imgW : ℤ) - 1 ∧
      0 ≤ (canvas_to_image_coords imgW imgH displayW displayH
            (scale_factor_of displayW displayH imgW imgH) px py).2 ∧
      (canvas_to_image_coords imgW imgH displayW displayH
            (scale_factor_of displayW displayH imgW imgH) px py).2 ≤ (imgH : ℤ) - 1 := by
  intro imgW imgH displayW displayH px py hW hH _ _
  unfold canvas_to_image_coords
  refine ⟨le_max_left _ _, ?_, le_max_left _ _, ?_⟩
  · exact max_le (by omega) (min_le_right _ _)
  · exact max_le (by omega) (min_le_right _ _)

/-- Claim C7 witness: the theorem applied at a concrete 4×3 image on a
100×80 canvas with an out-of-bounds canvas point. -/
theorem c7_witness :
    1 ≤ 4 ∧
    (0 ≤ (canvas_to_image_coords 4 3 100 80 (scale_factor_of 100 80 4 3) 500 (-7)).1 ∧
     (canvas_to_image_coords 4 3 100 80 (scale_factor_of 100 80 4 3) 500 (-7)).1 ≤ (4 : ℤ) - 1 ∧
     0 ≤ (canvas_to_image_coords 4 3 100 80 (scale_factor_of 100 80 4 3) 500 (-7)).2 ∧
     (canvas_to_image_coords 4 3 100 80 (scale_factor_of 100 80 4 3) 500 (-7)).2 ≤ (3 : ℤ) - 1) :=
  ⟨by decide,
   c7_canvas_coords_in_bounds 4 3 100 80 500 (-7) (by decide) (by decide) (by decide) (by decide)⟩

/-- Claim C10: `set_inpaint_radius` clamps its integer argument into
`[1, 20]`: values below 1 are stored as 1, values above 20 as 20, in-range
values unchanged. -/
theorem c10_inpaint_radius_clamped :
    ∀ r : ℤ,
      1 ≤ set_inpaint_radius r ∧ set_inpaint_radius r ≤ 20 ∧
      (r < 1 → set_inpaint_radius r = 1) ∧
      (20 < r → set_inpaint_radius r = 20) ∧
      (1 ≤ r → r ≤ 20 → set_inpaint_radius r = r) := by
  intro r
  unfold set_inpaint_radius
  refine ⟨le_max_left _ _, ?_, ?_, ?_, ?_⟩ <;> omega

/-- Claim C10 witness: the theorem applied at the concrete out-of-range
input 25. -/
theorem c10_witness : (20 : ℤ) < 25 ∧ set_inpaint_radius 25 = 20 :=
  ⟨by decide, (c10_inpaint_radius_clamped 25).2.2.2.1 (by decide)⟩

/-- Counting a fold of `batch_step`: successes are the items where
`_process_single_image` returns True, failed paths are the paths of the
items where it returns False, in completion order. -/
theorem batch_fold_spec (order : List BatchItem) :
    ∀ acc : BatchCounters,
      order.foldl batch_step acc =
        ⟨acc.processed_count + order.length,
         acc.success_count + (order.filter process_single_image).length,
         acc.failed_paths ++
           (order.filter fun it => !process_single_image it).map (fun it => it.path)⟩ := by
  induction order with
  | nil => intro acc; simp
  | cons a l ih =>
    intro acc
    by_cases ha : process_single_image a = true
    · have hstep : batch_step acc a =
          ⟨acc.processed_count + 1, acc.success_count + 1, acc.failed_paths⟩ := by
        simp [batch_step, ha]
      rw [List.foldl_cons, hstep, ih]
      simp [List.filter_cons, ha]
      omega
    · have ha2 : process_single_image a = false := by
        revert ha
        cases process_single_image a <;> simp
      have hstep : batch_step acc a =
          ⟨acc.processed_count + 1, acc.success_count,
            acc.failed_paths ++ [a.path]⟩ := by
        simp [batch_step, ha2]
      rw [List.foldl_cons, hstep, ih]
      simp [List.filter_cons, ha2, List.append_assoc]
      omega

/-- Splitting a list's length by a boolean predicate. -/
theorem length_filter_pos_add_neg (p : BatchItem → Bool) :
    ∀ l : List BatchItem,
      (l.filter p).length + (l.filter fun it => !p it).length = l.length := by
  intro l
  induction l with
  | nil => rfl
  | cons a l ih =>
    by_cases h : p a <;> simp [List.filter_cons, h] <;> omega

/-- Claim C2: for every batch of sources of which some are unreadable (and
every readable source processable with writable output), after the batch
runs to natural completion in any completion order, success count plus
failure count equals the total, the failure count equals the number of
unreadable sources, and the failed-paths list contains exactly the
unreadable paths, in some order. -/
theorem c2_batch_invariants :
    ∀ (items order : List BatchItem),
      order.Perm items →
      (∀ it ∈ items, it.readable = true → it.processable = true ∧ it.writable = true) →
      (batch_process_thread order).success_count +
          (batch_process_thread order).failed_paths.length = items.length ∧
      (batch_process_thread order).failed_paths.length =
          ((items.filter fun it => !it.readable).length) ∧
      (batch_process_thread order).failed_paths.Perm
          ((items.filter fun it => !it.readable).map fun it => it.path) := by
  intro items order hperm hgood
  have hproc : ∀ it ∈ order, process_single_image it = it.readable := by
    intro it hit
    have hmem : it ∈ items := hperm.mem_iff.mp hit
    by_cases hr : it.readable
    · obtain ⟨hp, hw⟩ := hgood it hmem hr
      simp [process_single_image, hr, hp, hw]
    · have hr2 : it.readable = false := by
        revert hr
        cases it.readable <;> simp
      simp [process_single_image, hr2]
  have hrun : batch_process_thread order =
      ⟨order.length, (order.filter process_single_image).length,
        (order.filter fun it => !process_single_image it).map (fun it => it.path)⟩ := by
    unfold batch_process_thread
    rw [batch_fold_spec order ⟨0, 0, []⟩]
    simp
  have hfneg : (order.filter fun it => !process_single_image it) =
      (order.filter fun it => !it.readable) :=
    List.filter_congr (fun it hit => by rw [hproc it hit])
  have hfpos : (order.filter process_single_image) =
      (order.filter fun it => it.readable) :=
    List.filter_congr (fun it hit => by rw [hproc it hit])
  have hpermneg : (order.filter fun it => !it.readable).Perm
      (items.filter fun it => !it.readable) := hperm.filter _
  refine ⟨?_, ?_, ?_⟩
  · rw [hrun]
    simp only [List.length_map, hfneg, hfpos]
    have := length_filter_pos_add_neg (fun it => it.readable) order
    rw [hperm.length_eq] at this
    simpa using this
  · rw [hrun]
    simp only [List.length_map, hfneg]
    exact hpermneg.length_eq
  · rw [hrun]
    simp only [hfneg]
    exact hpermneg.map _

/-- Claim C2 witness: the theorem applied to a concrete two-item batch (one
readable, one unreadable) processed in reversed completion order. -/
theorem c2_witness :
    (batch_process_thread
        [⟨"b.png", false, true, true⟩, ⟨"a.png", true, true, true⟩]).success_count +
      (batch_process_thread
        [⟨"b.png", false, true, true⟩, ⟨"a.png", true, true, true⟩]).failed_paths.length =
      ([⟨"a.png", true, true, true⟩, ⟨"b.png", false, true, true⟩] : List BatchItem).length ∧
    (batch_process_thread
        [⟨"b.png", false, true, true⟩, ⟨"a.png", true, true, true⟩]).failed_paths.length =
      (([⟨"a.png", true, true, true⟩, ⟨"b.png", false, true, true⟩] : List BatchItem).filter
          fun it => !it.readable).length ∧
    (batch_process_thread
        [⟨"b.png", false, true, true⟩, ⟨"a.png", true, true, true⟩]).failed_paths.Perm
      ((([⟨"a.png", true, true, true⟩, ⟨"b.png", false, true, true⟩] : List BatchItem).filter
          fun it => !it.readable).map fun it => it.path) :=
  c2_batch_invariants
    [⟨"a.png", true, true, true⟩, ⟨"b.png", false, true, true⟩]
    [⟨"b.png", false, true, true⟩, ⟨"a.png", true, true, true⟩]
    (by decide) (by decide)

/-- Claim C9 counterexample: two batch runs share the same template-mask
contents at start and differ only in an in-place mutation of the live mask
applied after start (so the contents differ when the item executes); the
per-item oracle invocations differ, refuting the claim that a defensive
deep copy taken at start makes per-item results depend only on the
template mask as of start. -/
theorem c9_counterexample :
    (BatchRunTrace.mk [[0]] [[[0]]]).mask_at_start =
      (BatchRunTrace.mk [[0]] [[[255]]]).mask_at_start ∧
    run_item_oracle_calls ⟨[[0]], [[[0]]]⟩ [[[7]]] 3 .telea ≠
      run_item_oracle_calls ⟨[[0]], [[[255]]]⟩ [[[7]]] 3 .telea := by
  decide

/-- Claim C9 (amended): the batch thread takes no deep copy — it binds the
live template-mask array by reference, so each item's oracle input is
computed from the live mask's contents when the item runs; two runs with
the same start mask have identical per-item results provided the live mask
is never mutated after start (its contents at every item's execution still
equal the start contents). -/
theorem c9_no_defensive_copy :
    ∀ (t1 t2 : BatchRunTrace) (images : List Grid) (radius : Nat) (algo : CvAlgorithm),
      t1.mask_at_start = t2.mask_at_start →
      (∀ m ∈ t1.mask_at_item, m = t1.mask_at_start) →
      (∀ m ∈ t2.mask_at_item, m = t2.mask_at_start) →
      t1.mask_at_item.length = t2.mask_at_item.length →
      run_item_oracle_calls t1 images radius algo =
        run_item_oracle_calls t2 images radius algo := by
  intro t1 t2 images radius algo hstart h1 h2 hlen
  have e1 : t1.mask_at_item =
      List.replicate t1.mask_at_item.length t1.mask_at_start :=
    List.eq_replicate_iff.mpr ⟨rfl, h1⟩
  have e2 : t2.mask_at_item =
      List.replicate t2.mask_at_item.length t2.mask_at_start :=
    List.eq_replicate_iff.mpr ⟨rfl, h2⟩
  unfold run_item_oracle_calls
  rw [e1, e2, hlen, hstart]

/-- Claim C9 witness: the amended theorem applied to a concrete unmutated
run compared with itself. -/
theorem c9_witness :
    run_item_oracle_calls ⟨[[0]], [[[0]]]⟩ [[[7]]] 3 .telea =
      run_item_oracle_calls ⟨[[0]], [[[0]]]⟩ [[[7]]] 3 .telea :=
  c9_no_defensive_copy ⟨[[0]], [[[0]]]⟩ ⟨[[0]], [[[0]]]⟩ [[[7]]] 3 .telea rfl
    (by decide) (by decide) rfl

/-- A fold of `max` over naturals is zero exactly when every element is
zero. -/
theorem foldr_max_eq_zero_iff (l : List Nat) :
    l.foldr max 0 = 0 ↔ ∀ x ∈ l, x = 0 := by
  induction l with
  | nil => simp
  | cons a l ih => simp [List.foldr_cons, Nat.max_eq_zero_iff, ih]

/-- `gridMax g = 0` exactly when every entry of `g` is zero. -/
theorem gridMax_eq_zero_iff (g : Grid) :
    gridMax g = 0 ↔ ∀ row ∈ g, ∀ v ∈ row, v = 0 := by
  unfold gridMax
  rw [foldr_max_eq_zero_iff]
  constructor
  · intro h row hrow v hv
    have := h (row.foldr max 0) (List.mem_map_of_mem _ hrow)
    exact (foldr_max_eq_zero_iff row).mp this v hv
  · intro h x hx
    obtain ⟨row, hrow, rfl⟩ := List.mem_map.mp hx
    exact (foldr_max_eq_zero_iff row).mpr (h row hrow)

/-- `List.getD` yields either a member of the list or the default. -/
theorem getD_mem_or_default {α : Type} (l : List α) (i : Nat) (d : α) :
    l.getD i d ∈ l ∨ l.getD i d = d := by
  by_cases h : i < l.length
  · left
    rw [List.getD_eq_getElem l d h]
    exact List.getElem_mem h
  · right
    exact List.getD_eq_default l d (le_of_not_lt h)

/-- Nearest-neighbour resizing of an all-zero grid yields an all-zero
grid. -/
theorem resizeNearest_all_zero (src : Grid) (dstH dstW : Nat)
    (hz : ∀ row ∈ src, ∀ v ∈ row, v = 0) :
    ∀ row ∈ resizeNearest src dstH dstW, ∀ v ∈ row, v = 0 := by
  intro row hrow v hv
  unfold resizeNearest at hrow
  obtain ⟨i, _, rfl⟩ := List.mem_map.mp hrow
  obtain ⟨j, _, rfl⟩ := List.mem_map.mp hv
  rcases getD_mem_or_default src _ ([] : List Nat) with hL | hL
  · rcases getD_mem_or_default (src.getD _ ([] : List Nat)) _ 0 with hV | hV
    · exact hz _ hL _ hV
    · exact hV
  · rw [hL]
    rfl

/-- Binarizing an all-zero grid yields an all-zero grid, so its `gridMax`
is zero. -/
theorem gridMax_binarize_resize_zero (m : Grid) (dstH dstW : Nat)
    (hm : gridMax m = 0) :
    gridMax (binarize (resizeNearest m dstH dstW)) = 0 := by
  rw [gridMax_eq_zero_iff]
  intro row hrow v hv
  unfold binarize at hrow
  obtain ⟨row0, hrow0, rfl⟩ := List.mem_map.mp hrow
  obtain ⟨v0, hv0, rfl⟩ := List.mem_map.mp hv
  have hz := resizeNearest_all_zero m dstH dstW ((gridMax_eq_zero_iff m).mp hm)
  have : v0 = 0 := hz row0 hrow0 v0 hv0
  rw [this]
  rfl

/-- Claim C5 counterexample: in `watermark/watermark_remover.py`, invoking
`remove_watermark` on a loaded 1×1 image with an all-zero mask returns
`(False, no result image)` — exactly the value the hard-failure path
returns (second conjunct: the no-image call) — so the empty-mask case does
not return the original image and is not distinguishable by the caller
from a hard failure, refuting the claim for this module. -/
theorem c5_counterexample :
    wm_remove_watermark (some [[5]]) [[5]] (some [[0]]) (fun i _ _ => i) 3 =
      (false, none) ∧
    wm_remove_watermark none [[5]] none (fun i _ _ => i) 3 = (false, none) := by
  decide

/-- Claim C5 (amended): with a loaded image and a mask with no marked
pixel, the `core/watermark_remover.py` implementation returns a copy of the
original image together with the warning-level signal, distinguishable from
the hard-failure return (`None`, as in the no-image call); but the
`watermark/watermark_remover.py` implementation returns `False` with no
result image — the same observable as its hard-failure paths. -/
theorem c5_empty_mask_behaviour :
    ∀ (img m : Grid) (inp : Grid → Grid → Grid)
      (inp2 : Grid → Grid → Nat → Grid) (r : Nat),
      gridMax m = 0 →
      core_remove_watermark (some img) (some m) inp = (some img, true) ∧
      core_remove_watermark none (some m) inp = (none, false) ∧
      (some img ≠ (none : Option Grid)) ∧
      wm_remove_watermark (some img) img (some m) inp2 r = (false, none) := by
  intro img m inp inp2 r hm
  refine ⟨?_, rfl, by simp, ?_⟩
  · show (if gridMax m = 0 then (some img, true)
        else (some (inp img m), false)) = (some img, true)
    rw [if_pos hm]
  · show (if gridMax (binarize (resizeNearest m img.length (img.headD []).length)) = 0 then
          ((false : Bool), (none : Option Grid))
        else (true, some (inp2 img (binarize (resizeNearest m img.length
          (img.headD []).length)) r))) = (false, none)
    rw [if_pos (gridMax_binarize_resize_zero m _ _ hm)]

/-- Claim C5 witness: the amended theorem applied at a concrete 1×1 image
and zero mask. -/
theorem c5_witness :
    gridMax [[0]] = 0 ∧
    (core_remove_watermark (some [[5]]) (some [[0]]) (fun i _ => i) =
        (some [[5]], true) ∧
      core_remove_watermark none (some [[0]]) (fun i _ => i) = (none, false) ∧
      (some [[5]] ≠ (none : Option Grid)) ∧
      wm_remove_watermark (some [[5]]) [[5]] (some [[0]]) (fun i _ _ => i) 3 =
        (false, none)) :=
  ⟨by decide,
   c5_empty_mask_behaviour [[5]] [[0]] (fun i _ => i) (fun i _ _ => i) 3 (by decide)⟩

/-- Membership in an `insert_by_conf` result. -/
theorem mem_insert_by_conf (r a : DetectedRegion) :
    ∀ l : List DetectedRegion, a ∈ insert_by_conf r l ↔ a = r ∨ a ∈ l := by
  intro l
  induction l with
  | nil => simp [insert_by_conf]
  | cons s rest ih =>
    by_cases h : s.confidence < r.confidence
    · simp [insert_by_conf, h]
    · simp only [insert_by_conf, if_neg h, List.mem_cons, ih]
      tauto

/-- Inserting into a list sorted by non-increasing confidence keeps it
sorted. -/
theorem pairwise_insert_by_conf (r : DetectedRegion) :
    ∀ l : List DetectedRegion,
      l.Pairwise (fun a b => b.confidence ≤ a.confidence) →
      (insert_by_conf r l).Pairwise (fun a b => b.confidence ≤ a.confidence) := by
  intro l
  induction l with
  | nil => intro _; simp [insert_by_conf]
  | cons s rest ih =>
    intro hp
    rw [List.pairwise_cons] at hp
    obtain ⟨hs, hrest⟩ := hp
    by_cases h : s.confidence < r.confidence
    · rw [show insert_by_conf r (s :: rest) = r :: s :: rest from by
        simp [insert_by_conf, h]]
      rw [List.pairwise_cons]
      refine ⟨?_, ?_⟩
      · intro b hb
        rcases List.mem_cons.mp hb with rfl | hb2
        · exact le_of_lt h
        · exact le_trans (hs b hb2) (le_of_lt h)
      · rw [List.pairwise_cons]
        exact ⟨hs, hrest⟩
    · rw [show insert_by_conf r (s :: rest) = s :: insert_by_conf r rest from by
        simp [insert_by_conf, h]]
      rw [List.pairwise_cons]
      refine ⟨?_, ih hrest⟩
      intro b hb
      rcases (mem_insert_by_conf r b rest).mp hb with rfl | hb2
      · exact not_lt.mp h
      · exact hs b hb2

/-- `sort_by_conf_desc` sorts by non-increasing confidence. -/
theorem pairwise_sort_by_conf_desc :
    ∀ l : List DetectedRegion,
      (sort_by_conf_desc l).Pairwise (fun a b => b.confidence ≤ a.confidence) := by
  intro l
  induction l with
  | nil => simp [sort_by_conf_desc]
  | cons r rest ih => exact pairwise_insert_by_conf r _ ih

/-- `sort_by_conf_desc` preserves membership. -/
theorem mem_sort_by_conf_desc (a : DetectedRegion) :
    ∀ l : List DetectedRegion, a ∈ sort_by_conf_desc l ↔ a ∈ l := by
  intro l
  induction l with
  | nil => simp [sort_by_conf_desc]
  | cons r rest ih =>
    show a ∈ insert_by_conf r (sort_by_conf_desc rest) ↔ _
    rw [mem_insert_by_conf, ih]
    simp

/-- Claim C8: for every input image, the watermark detector returns at most
5 regions, every region's confidence lies in `[0, 1]`, and the list is
sorted in non-increasing order of confidence. -/
theorem c8_detector_output :
    ∀ (imgW imgH : Nat) (contours : List ContourStats),
      (detect_watermark imgW imgH contours).length ≤ 5 ∧
      (∀ r ∈ detect_watermark imgW imgH contours,
        0 ≤ r.confidence ∧ r.confidence ≤ 1) ∧
      (detect_watermark imgW imgH contours).Pairwise
        (fun a b => b.confidence ≤ a.confidence) := by
  intro imgW imgH contours
  refine ⟨?_, ?_, ?_⟩
  · unfold detect_watermark
    exact List.length_take_le 5 _
  · intro r hr
    unfold detect_watermark at hr
    have h1 := List.mem_of_mem_take hr
    have h2 := (mem_sort_by_conf_desc r _).mp h1
    obtain ⟨c, _, rfl⟩ := List.mem_map.mp h2
    exact ⟨le_max_left _ _, max_le (by norm_num) (min_le_left _ _)⟩
  · unfold detect_watermark
    exact (pairwise_sort_by_conf_desc _).sublist (List.take_sublist 5 _)

/-- Claim C8 witness: the theorem applied to a concrete 100×100 image with
one surviving 10×10 contour, with the confidence bound instantiated at the
produced region. -/
theorem c8_witness :
    (detect_watermark 100 100 [⟨0, 0, 10, 10, 10, 500⟩]).length ≤ 5 ∧
    (0 ≤ (DetectedRegion.mk 0 0 10 10 100
        (calculate_watermark_confidence 10 (500 / ((10 : ℚ) * 10)))).confidence ∧
      (DetectedRegion.mk 0 0 10 10 100
        (calculate_watermark_confidence 10 (500 / ((10 : ℚ) * 10)))).confidence ≤ 1) ∧
    (detect_watermark 100 100 [⟨0, 0, 10, 10, 10, 500⟩]).Pairwise
      (fun a b => b.confidence ≤ a.confidence) :=
  ⟨(c8_detector_output 100 100 [⟨0, 0, 10, 10, 10, 500⟩]).1,
   (c8_detector_output 100 100 [⟨0, 0, 10, 10, 10, 500⟩]).2.1
     (DetectedRegion.mk 0 0 10 10 100
       (calculate_watermark_confidence 10 (500 / ((10 : ℚ) * 10))))
     (by
       have hdet : detect_watermark 100 100 [⟨0, 0, 10, 10, 10, 500⟩] =
           [DetectedRegion.mk 0 0 10 10 100
             (calculate_watermark_confidence 10 (500 / ((10 : ℚ) * 10)))] := by
         norm_num [detect_watermark, sort_by_conf_desc, insert_by_conf]
       rw [hdet]
       exact List.mem_singleton.mpr rfl),
   (c8_detector_output 100 100 [⟨0, 0, 10, 10, 10, 500⟩]).2.2⟩
